import Mathlib

/-!
Verification development for the Secret Santa bot (`bot.py`).

The Python source is shallowly embedded in Lean:

* `make_derangement` (bot.py lines 117-141) becomes a pure function.  The two
  calls to `random.shuffle` inside the retry loop are modelled by an oracle
  `shuffles : List (List Int)` giving, per attempt, the contents of the
  `receivers` list right after that attempt's shuffle; the final shuffle of
  the fallback branch is the oracle `finalShuffle`.  Theorems hypothesise that
  each oracle value is a permutation of `items`, which is exactly what
  `random.shuffle` guarantees.  The loop body `for i in range(n): if items[i]
  == receivers[i]: swap receivers[i], receivers[(i+1) % n]` becomes
  `repairFrom`/`repairFixedPoints`.
* The SQLite database becomes an explicit record of table rows, and each
  command handler becomes a state-passing function returning the new database
  together with an inductive value standing for the exact reply message the
  handler sends (each constructor is annotated with the source string).
-/

/-!
Database model.  The SQLite tables of `init_db` (bot.py lines 40-87) are
lists of rows; `created_at` columns are modelled by a logical clock `clock`
that strictly increases at every insert into `chats`, matching
`CURRENT_TIMESTAMP` ordering.  Timestamps that no modelled query reads
(`joined_at`, pair and token `created_at`) are omitted.
-/

/-!
Claim theorems.  Each `C<n>_...` theorem settles the correspondingly numbered
claim; `..._witness` theorems instantiate hypothesis-bearing theorems at
concrete inputs.
-/

/-- Exceptions raised by `make_derangement` (bot.py lines 124 and 140):
`needAtLeast3` is `ValueError("Need at least 3 participants")` and
`failedToCreate` is `RuntimeError("Failed to create valid assignment")`. -/
inductive DerangeError where
  | needAtLeast3
  | failedToCreate
deriving DecidableEq

/-- The accept test of the retry loop (bot.py line 129):
`all(g != r for g, r in zip(items, receivers))`. -/
def derangementOk (items receivers : List Int) : Bool :=
  (items.zip receivers).all fun p => decide (p.1 ≠ p.2)

/-- One Python swap `receivers[i], receivers[j] = receivers[j], receivers[i]`
(bot.py line 138): both right-hand values are read before either write. -/
def swapAt (l : List Int) (i j : Nat) : List Int :=
  (l.set i (l.getD j 0)).set j (l.getD i 0)

/-- One iteration of the fallback loop body (bot.py lines 136-138):
`if items[i] == receivers[i]: swap i with (i+1) % n`. -/
def repairStep (items r : List Int) (i : Nat) : List Int :=
  if items.getD i 0 = r.getD i 0 then swapAt r i ((i + 1) % items.length) else r

/-- The fallback loop `for i in range(n)` (bot.py lines 135-138), unrolled by
fuel; `repairFixedPoints` runs it from `i = 0` with fuel `n`. -/
def repairFrom (items : List Int) : List Int → Nat → Nat → List Int
  | r, _, 0 => r
  | r, i, fuel + 1 => repairFrom items (repairStep items r i) (i + 1) fuel

/-- The whole deterministic repair pass of the fallback branch. -/
def repairFixedPoints (items r : List Int) : List Int :=
  repairFrom items r 0 items.length

/-- `make_derangement(items)` (bot.py lines 117-141).  `shuffles` is the
oracle of shuffle outcomes for the 2000 retry-loop attempts and
`finalShuffle` the outcome of the fallback branch's shuffle (line 134). -/
def make_derangement (items : List Int) (shuffles : List (List Int))
    (finalShuffle : List Int) : Except DerangeError (List (Int × Int)) :=
  if items.length < 3 then .error .needAtLeast3
  else
    match (shuffles.take 2000).find? (fun r => derangementOk items r) with
    | some r => .ok (items.zip r)
    | none =>
      if (items.zip (repairFixedPoints items finalShuffle)).any
          (fun p => decide (p.1 = p.2)) then .error .failedToCreate
      else .ok (items.zip (repairFixedPoints items finalShuffle))

/-- Row of table `chats` (bot.py lines 44-48). -/
structure ChatRow where
  chat_id : Int
  title : String
  created_at : Nat
deriving DecidableEq

/-- Row of table `participants` (bot.py lines 51-60) plus the migrated
`wishlist` column (line 85); `is_active` is the SQL INTEGER flag. -/
structure ParticipantRow where
  chat_id : Int
  user_id : Int
  username : Option String
  full_name : String
  is_active : Int
  wishlist : Option String
deriving DecidableEq

/-- Row of table `pairs` (bot.py lines 62-69). -/
structure PairRow where
  chat_id : Int
  giver_user_id : Int
  receiver_user_id : Int
deriving DecidableEq

/-- Row of table `join_tokens` (bot.py lines 72-78). -/
structure TokenRow where
  token : String
  chat_id : Int
  is_open : Int
deriving DecidableEq

/-- The whole SQLite database. -/
structure DB where
  chats : List ChatRow
  participants : List ParticipantRow
  pairs : List PairRow
  join_tokens : List TokenRow
  clock : Nat
deriving DecidableEq

/-- Primary key `(chat_id, user_id)` of `participants`: no two rows share it. -/
def participants_key_unique (ps : List ParticipantRow) : Prop :=
  ps.Pairwise fun a b => ¬(a.chat_id = b.chat_id ∧ a.user_id = b.user_id)

/-- Primary key `token` of `join_tokens`: no two rows share it. -/
def tokens_key_unique (ts : List TokenRow) : Prop :=
  ts.Pairwise fun a b => a.token ≠ b.token

/-- Fold step selecting the chat with the largest `created_at`. -/
def laterChat (acc : Option ChatRow) (c : ChatRow) : Option ChatRow :=
  match acc with
  | none => some c
  | some b => if b.created_at < c.created_at then some c else some b

/-- `get_bound_chat_id` (bot.py lines 94-97):
`SELECT chat_id FROM chats ORDER BY created_at DESC LIMIT 1`. -/
def get_bound_chat_id (db : DB) : Option Int :=
  (db.chats.foldl laterChat none).map fun c => c.chat_id

/-- `is_admin` (bot.py lines 90-91); `none` models `user_id is None`, and the
handlers that reply "Доступно только админу." pass the possibly-absent
`update.effective_user`. -/
def is_admin (admins : List Int) (uid : Option Int) : Bool :=
  match uid with
  | none => false
  | some u => decide (u ∈ admins)

/-- The three failure replies of `ensure_in_bound_chat` (bot.py lines 100-108). -/
inductive BoundErr where
  | notBound   -- "Сначала админ должен выполнить /bind_chat в нужном чате."
  | noChat     -- "Не удалось определить чат."
  | wrongChat  -- "Этот бот настроен на другой чат. ..."
deriving DecidableEq

/-- `ensure_in_bound_chat` (bot.py lines 100-108); `effChat` is
`update.effective_chat` (`none` when absent). -/
def ensure_in_bound_chat (db : DB) (effChat : Option Int) : Except BoundErr Int :=
  match get_bound_chat_id db with
  | none => .error .notBound
  | some bound =>
    match effChat with
    | none => .error .noChat
    | some c => if c ≠ bound then .error .wrongChat else .ok bound

/-- Replies of `cmd_bind_chat` (bot.py lines 189-212). -/
inductive BindReply where
  | ignored    -- effective_user or effective_chat absent: handler returns silently
  | needGroup  -- "Эта команда должна выполняться в групповом чате."
  | notAdmin   -- "Доступно только админу."
  | bound      -- "Готово. Чат привязан. ..."
deriving DecidableEq

/-- `INSERT OR REPLACE INTO chats(chat_id, title)` (bot.py lines 202-205)
under `PRAGMA foreign_keys=ON` (line 36).  SQLite's REPLACE resolution
deletes the conflicting existing `chats` row before inserting, and that
implicit delete runs the `ON DELETE CASCADE` actions of `participants`,
`pairs` and `join_tokens` (verified against SQLite: rebinding an existing
chat_id empties those tables for that chat). -/
def insert_or_replace_chat (db : DB) (chat_id : Int) (title : String) : DB :=
  let db1 :=
    if db.chats.any (fun c => decide (c.chat_id = chat_id)) then
      { db with
        chats := db.chats.filter fun c => decide (c.chat_id ≠ chat_id),
        participants := db.participants.filter fun p => decide (p.chat_id ≠ chat_id),
        pairs := db.pairs.filter fun p => decide (p.chat_id ≠ chat_id),
        join_tokens := db.join_tokens.filter fun t => decide (t.chat_id ≠ chat_id) }
    else db
  { db1 with chats := db1.chats ++ [⟨chat_id, title, db1.clock⟩], clock := db1.clock + 1 }

/-- `cmd_bind_chat` (bot.py lines 189-212). -/
def cmd_bind_chat (db : DB) (admins : List Int) (uid : Option Int) (effChat : Option Int)
    (isGroup : Bool) (title : String) : DB × BindReply :=
  match uid, effChat with
  | none, _ => (db, .ignored)
  | some _, none => (db, .ignored)
  | some u, some c =>
    if ¬ isGroup then (db, .needGroup)
    else if ¬ is_admin admins (some u) then (db, .notAdmin)
    else
      let db1 := insert_or_replace_chat db c title
      -- "Close all old tokens for safety": UPDATE join_tokens SET is_open=0 (no WHERE)
      ({ db1 with join_tokens := db1.join_tokens.map fun t => { t with is_open := 0 } }, .bound)

/-- `UPDATE join_tokens SET is_open=0 WHERE chat_id=?` (bot.py lines 148, 246). -/
def close_tokens_for (ts : List TokenRow) (chat : Int) : List TokenRow :=
  ts.map fun t => if t.chat_id = chat then { t with is_open := 0 } else t

/-- `create_join_token` (bot.py lines 144-153).  `tok` is the oracle for the
`secrets.token_urlsafe` result after the regex filter; the INSERT hits the
`token` primary key when `tok` already exists, raising IntegrityError
(modelled as `none`). -/
def create_join_token (db : DB) (chat : Int) (tok : String) : Option DB :=
  let closed := close_tokens_for db.join_tokens chat
  if closed.any (fun t => decide (t.token = tok)) then none
  else some { db with join_tokens := closed ++ [⟨tok, chat, 1⟩] }

/-- Replies of `cmd_close_join` (bot.py lines 237-247). -/
inductive CloseReply where
  | notAdmin             -- "Доступно только админу."
  | boundFail (e : BoundErr)
  | closed               -- "Регистрация закрыта."
deriving DecidableEq

/-- `cmd_close_join` (bot.py lines 237-247). -/
def cmd_close_join (db : DB) (admins : List Int) (uid : Option Int) (effChat : Option Int) :
    DB × CloseReply :=
  if ¬ is_admin admins uid then (db, .notAdmin)
  else
    match ensure_in_bound_chat db effChat with
    | .error e => (db, .boundFail e)
    | .ok chat => ({ db with join_tokens := close_tokens_for db.join_tokens chat }, .closed)

/-- The Telegram user as read by `cmd_start`/`cmd_wish`; the source's
early return when `effective_user` is absent is transport glue and elided. -/
structure UserInfo where
  id : Int
  username : Option String
  full_name : String
deriving DecidableEq

/-- Python `str.strip()` on the character list: drop whitespace from both
ends (string operations are modelled on `String.data` so that they compute
by structural recursion). -/
def trimChars (l : List Char) : List Char :=
  ((l.dropWhile fun c => c.isWhitespace).reverse.dropWhile fun c => c.isWhitespace).reverse

/-- `payload.startswith("join_")` (bot.py line 268). -/
def startsWithJoin (payload : String) : Bool :=
  decide (payload.data.take 5 = ("join_").data)

/-- `payload.replace("join_", "", 1).strip()` (bot.py line 275): on a
payload that starts with "join_" this removes exactly that 5-character
prefix and strips whitespace. -/
def dropJoinPrefix (payload : String) : String :=
  String.mk (trimChars (payload.data.drop 5))

/-- `(user.username or "").strip().lstrip("@") or None` (bot.py line 294). -/
def normalize_username (u : Option String) : Option String :=
  let s := (trimChars (u.getD "").data).dropWhile fun c => c = '@'
  if s = [] then none else some (String.mk s)

/-- The value stored by the upsert: `username.lower() if username else None`
(bot.py line 307). -/
def stored_username (u : Option String) : Option String :=
  (normalize_username u).map fun s => String.mk (s.data.map Char.toLower)

/-- `(user.full_name or "Участник").strip()` (bot.py line 295). -/
def stored_full_name (n : String) : String :=
  String.mk (trimChars (if n = "" then "Участник" else n).data)

/-- `SELECT chat_id, is_open FROM join_tokens WHERE token=?` (bot.py 277-280). -/
def find_token (db : DB) (tok : String) : Option TokenRow :=
  db.join_tokens.find? fun t => decide (t.token = tok)

/-- `INSERT INTO participants ... ON CONFLICT(chat_id, user_id) DO UPDATE SET
username=excluded.username, full_name=excluded.full_name, is_active=1`
(bot.py lines 297-308): the wishlist column is untouched on conflict. -/
def upsert_participant (ps : List ParticipantRow) (chat user : Int)
    (username : Option String) (full_name : String) : List ParticipantRow :=
  if ps.any (fun p => decide (p.chat_id = chat ∧ p.user_id = user)) then
    ps.map fun p =>
      if p.chat_id = chat ∧ p.user_id = user then
        { p with username := username, full_name := full_name, is_active := 1 }
      else p
  else ps ++ [⟨chat, user, username, full_name, 1, none⟩]

/-- Replies of `cmd_start` (bot.py lines 250-316). -/
inductive StartReply where
  | notConfigured       -- "Бот ещё не настроен админом. ..."
  | greeting            -- payload does not start with "join_"
  | invalidToken        -- "Ссылка регистрации недействительна. ..."
  | chatMismatch        -- "Этот бот сейчас настроен на другой чат."
  | registrationClosed  -- "Регистрация закрыта. ..."
  | enrolled            -- "Готово. Ты зарегистрирован(а) ..."
deriving DecidableEq

/-- The successful-redemption write of `cmd_start` (bot.py lines 297-308):
the upsert into `participants` for the token's chat. -/
def enroll (db : DB) (chat : Int) (user : UserInfo) : DB :=
  let ps := upsert_participant db.participants chat user.id
    (stored_username user.username) (stored_full_name user.full_name)
  { db with participants := ps }

/-- The token-redemption tail of `cmd_start` (bot.py lines 275-316), after
the payload prefix has been stripped. -/
def redeem (db : DB) (user : UserInfo) (tok : String) (bound : Int) : DB × StartReply :=
  match find_token db tok with
  | none => (db, .invalidToken)
  | some row =>
    if row.chat_id ≠ bound then (db, .chatMismatch)
    else if row.is_open ≠ 1 then (db, .registrationClosed)
    else (enroll db row.chat_id user, .enrolled)

/-- `cmd_start` (bot.py lines 250-316); `payload` is
`" ".join(context.args).strip()`.  Since the payload is checked to start with
`"join_"`, the source's `payload.replace("join_", "", 1).strip()` equals
dropping those 5 characters and trimming. -/
def cmd_start (db : DB) (user : UserInfo) (payload : String) : DB × StartReply :=
  match get_bound_chat_id db with
  | none => (db, .notConfigured)
  | some bound =>
    if ¬ startsWithJoin payload then (db, .greeting)
    else redeem db user (dropJoinPrefix payload) bound

/-- Replies of `cmd_wish` (bot.py lines 321-366). -/
inductive WishReply where
  | notConfigured    -- "Бот еще не настроен админом."
  | usage            -- "Напиши пожелание так: ..."
  | tooLong          -- "Слишком длинно. Сократи до 600 символов."
  | notAParticipant  -- "Я не вижу тебя в списке участников этого чата. ..."
  | saved            -- "Готово. Пожелание сохранено. ..."
deriving DecidableEq

/-- `SELECT 1 FROM participants WHERE chat_id=? AND user_id=? AND is_active=1`
(bot.py lines 349-352). -/
def is_active_participant (db : DB) (chat uid : Int) : Bool :=
  db.participants.any fun p => decide (p.chat_id = chat ∧ p.user_id = uid ∧ p.is_active = 1)

/-- `cmd_wish` (bot.py lines 321-366); `text` is `" ".join(context.args).strip()`.
The final UPDATE (lines 361-364) filters on `(chat_id, user_id)` only. -/
def cmd_wish (db : DB) (uid : Int) (text : String) : DB × WishReply :=
  match get_bound_chat_id db with
  | none => (db, .notConfigured)
  | some bound =>
    if text = "" then (db, .usage)
    else if 600 < text.length then (db, .tooLong)
    else if ¬ is_active_participant db bound uid then (db, .notAParticipant)
    else
      let ps := db.participants.map fun p =>
        if p.chat_id = bound ∧ p.user_id = uid then { p with wishlist := some text } else p
      ({ db with participants := ps }, .saved)

/-- Replies of `cmd_draw` (bot.py lines 644-695). -/
inductive DrawReply where
  | notAdmin                     -- "Доступно только админу."
  | boundFail (e : BoundErr)
  | needThree                    -- "Нужно минимум 3 зарегистрированных участника. ..."
  | derangeRaise (e : DerangeError)  -- the Python exception propagates; nothing is persisted
  | allSent                      -- "Жеребьёвка проведена. ..."
  | someFailed                   -- "Жеребьёвка создана, но не всем удалось ..."
deriving DecidableEq

/-- `SELECT ... FROM participants WHERE chat_id=? AND is_active=1`
(bot.py lines 654-661). -/
def active_participants (db : DB) (chat : Int) : List ParticipantRow :=
  db.participants.filter fun p => decide (p.chat_id = chat ∧ p.is_active = 1)

/-- The persistence step of `cmd_draw` (bot.py lines 670-675): DELETE all of
the chat's pairs, then executemany-INSERT the new ones.  The INSERT cannot
hit the `(chat_id, giver_user_id)` primary key: the chat's rows were just
deleted, other chats' rows differ in `chat_id`, and the derangement lists
each giver once (`make_derangement_spec`). -/
def persist_pairs (db : DB) (chat : Int) (prs : List (Int × Int)) : DB :=
  let kept := db.pairs.filter fun pr => decide (pr.chat_id ≠ chat)
  let inserted : List PairRow := prs.map fun p => ⟨chat, p.1, p.2⟩
  { db with pairs := kept ++ inserted }

/-- The notification loop of `cmd_draw` (bot.py lines 679-686): one
`_send_pair_with_wish` attempt per pair, collecting `(giver, error)` for the
attempts that raised.  `deliver giver = some e` models `send_message` raising
an exception with text `e`; the message body only feeds the transport. -/
def notify_failures (prs : List (Int × Int)) (deliver : Int → Option String) :
    List (Int × String) :=
  prs.filterMap fun p => (deliver p.1).map fun e => (p.1, e)

/-- `cmd_draw` (bot.py lines 644-695).  Besides the new database and the
reply, the result records the sequence of givers for which a send was
attempted and the collected failures. -/
def cmd_draw (db : DB) (admins : List Int) (uid : Option Int) (effChat : Option Int)
    (shuffles : List (List Int)) (finalShuffle : List Int) (deliver : Int → Option String) :
    DB × DrawReply × List Int × List (Int × String) :=
  if ¬ is_admin admins uid then (db, .notAdmin, [], [])
  else
    match ensure_in_bound_chat db effChat with
    | .error e => (db, .boundFail e, [], [])
    | .ok chat =>
      if (active_participants db chat).length < 3 then (db, .needThree, [], [])
      else
        match make_derangement ((active_participants db chat).map fun p => p.user_id)
            shuffles finalShuffle with
        | .error e => (db, .derangeRaise e, [], [])
        | .ok prs =>
          (persist_pairs db chat prs,
            if (notify_failures prs deliver).isEmpty then .allSent else .someFailed,
            prs.map fun p => p.1,
            notify_failures prs deliver)

/-- Concrete draw scenario: chat 100 bound, three active participants
1, 2, 3, a stale pair from a previous draw for chat 100 and one pair of an
unrelated chat 200. -/
def drawDB : DB :=
  DB.mk [ChatRow.mk 100 "m" 0]
    [ParticipantRow.mk 100 1 none "A" 1 none, ParticipantRow.mk 100 2 none "B" 1 none,
      ParticipantRow.mk 100 3 none "C" 1 none]
    [PairRow.mk 100 1 2, PairRow.mk 200 5 6] [] 1

/-- Concrete redemption scenario for C4: chat 100 is bound but the stored
token "t1" belongs to chat 200 and is moreover closed. -/
def dbC4 : DB :=
  DB.mk [ChatRow.mk 100 "main" 0] [] [] [TokenRow.mk "t1" 200 0] 1

/-- Concrete re-enrollment scenario for C5: chat 100 bound with an open
token "t1"; user 7 already has a deactivated participant row with a stale
handle, name and a saved wishlist. -/
def dbC5 : DB :=
  DB.mk [ChatRow.mk 100 "m" 0]
    [ParticipantRow.mk 100 7 (some "old") "Old Name" 0 (some "books")]
    [] [TokenRow.mk "t1" 100 1] 1

/-- The open tokens of a chat: `SELECT ... WHERE chat_id=? AND is_open=1`. -/
def open_tokens_for (ts : List TokenRow) (chat : Int) : List TokenRow :=
  ts.filter fun t => decide (t.chat_id = chat ∧ t.is_open = 1)

/-- The spec invariant: at most one join token per chat is open. -/
def at_most_one_open (ts : List TokenRow) : Prop :=
  ∀ c : Int, (open_tokens_for ts c).length ≤ 1

/-- Concrete token scenario for C6: chat 100 bound with open token "old1";
chat 200 has an unrelated open token. -/
def dbC6 : DB :=
  DB.mk [ChatRow.mk 100 "m" 0] [] [] [TokenRow.mk "old1" 100 1, TokenRow.mk "zz" 200 1] 1

/-- A string of n letters 'a', for the wishlist length scenarios. -/
def aText (n : Nat) : String :=
  String.mk (List.replicate n 'a')

/-- A bound chat (100) with no participants at all: user 5 is not an active
participant. -/
def dbC7x : DB :=
  DB.mk [ChatRow.mk 100 "m" 0] [] [] [] 1

/-- A bound chat (100) with user 5 as its only active participant. -/
def dbC7w : DB :=
  DB.mk [ChatRow.mk 100 "m" 0] [ParticipantRow.mk 100 5 none "P" 1 none] [] [] 1

/-- The C3 scenario: chat 100 is already bound and has a participant, a
persisted pair and an open token; the admin re-runs /bind_chat in the same
chat. -/
def dbC3 : DB :=
  DB.mk [ChatRow.mk 100 "t" 0] [ParticipantRow.mk 100 7 none "Alice" 1 none]
    [PairRow.mk 100 7 8] [TokenRow.mk "tok" 100 1] 1

lemma getD_set_eq : ∀ (l : List Int) (i : Nat) (a d : Int), i < l.length →
    (l.set i a).getD i d = a := by
  intro l
  induction l with
  | nil => intro i a d h; simp at h
  | cons x t ih =>
    intro i a d h
    cases i with
    | zero => simp
    | succ n =>
      simp only [List.set_cons_succ, List.getD_cons_succ]
      exact ih n a d (by simpa using h)

lemma getD_set_ne : ∀ (l : List Int) (i j : Nat) (a d : Int), i ≠ j →
    (l.set i a).getD j d = l.getD j d := by
  intro l
  induction l with
  | nil => intro i j a d _; simp [List.set]
  | cons x t ih =>
    intro i j a d hij
    cases i with
    | zero =>
      cases j with
      | zero => exact absurd rfl hij
      | succ m => simp
    | succ n =>
      cases j with
      | zero => simp
      | succ m =>
        simp only [List.set_cons_succ, List.getD_cons_succ]
        exact ih n m a d (by omega)

lemma swapAt_length (l : List Int) (i j : Nat) : (swapAt l i j).length = l.length := by
  simp [swapAt]

lemma swapAt_getD_fst (l : List Int) (i j : Nat) (hij : i ≠ j) (hi : i < l.length) :
    (swapAt l i j).getD i 0 = l.getD j 0 := by
  unfold swapAt
  rw [getD_set_ne _ _ _ _ _ (fun h => hij h.symm)]
  exact getD_set_eq _ _ _ _ hi

lemma swapAt_getD_snd (l : List Int) (i j : Nat) (hj : j < l.length) :
    (swapAt l i j).getD j 0 = l.getD i 0 := by
  unfold swapAt
  exact getD_set_eq _ _ _ _ (by simpa using hj)

lemma swapAt_getD_other (l : List Int) (i j k : Nat) (hki : k ≠ i) (hkj : k ≠ j) :
    (swapAt l i j).getD k 0 = l.getD k 0 := by
  unfold swapAt
  rw [getD_set_ne _ _ _ _ _ (fun h => hkj h.symm), getD_set_ne _ _ _ _ _ (fun h => hki h.symm)]

lemma cons_set_perm : ∀ (t : List Int) (k : Nat) (a : Int), k < t.length →
    (t.getD k 0 :: t.set k a).Perm (a :: t) := by
  intro t
  induction t with
  | nil => intro k a h; simp at h
  | cons b s ih =>
    intro k a h
    cases k with
    | zero =>
      simp only [List.getD_cons_zero, List.set_cons_zero]
      exact List.Perm.swap a b s
    | succ m =>
      simp only [List.getD_cons_succ, List.set_cons_succ]
      have h1 : (s.getD m 0 :: b :: s.set m a).Perm (b :: s.getD m 0 :: s.set m a) :=
        List.Perm.swap b (s.getD m 0) _
      have h2 : (b :: s.getD m 0 :: s.set m a).Perm (b :: a :: s) :=
        (ih m a (by simpa using h)).cons b
      have h3 : (b :: a :: s).Perm (a :: b :: s) := List.Perm.swap a b s
      exact (h1.trans h2).trans h3

lemma set_set_perm : ∀ (l : List Int) (i j : Nat), i < j → j < l.length →
    ((l.set i (l.getD j 0)).set j (l.getD i 0)).Perm l := by
  intro l
  induction l with
  | nil => intro i j _ h; simp at h
  | cons a t ih =>
    intro i j hij hj
    cases i with
    | zero =>
      cases j with
      | zero => omega
      | succ k =>
        simp only [List.getD_cons_succ, List.getD_cons_zero, List.set_cons_zero,
          List.set_cons_succ]
        exact cons_set_perm t k a (by simpa using hj)
    | succ m =>
      cases j with
      | zero => omega
      | succ k =>
        simp only [List.getD_cons_succ, List.set_cons_succ]
        exact (ih m k (by omega) (by simpa using hj)).cons a

lemma swapAt_perm (l : List Int) (i j : Nat) (hij : i ≠ j) (hi : i < l.length)
    (hj : j < l.length) : (swapAt l i j).Perm l := by
  rcases Nat.lt_or_ge i j with h | h
  · exact set_set_perm l i j h hj
  · have hji : j < i := by omega
    have hp := set_set_perm l j i hji hi
    unfold swapAt
    rw [List.set_comm _ _ _ hij]
    exact hp

lemma getD_mem : ∀ (l : List Int) (i : Nat) (d : Int), i < l.length → l.getD i d ∈ l := by
  intro l
  induction l with
  | nil => intro i d h; simp at h
  | cons a t ih =>
    intro i d h
    cases i with
    | zero => simp
    | succ n =>
      simp only [List.getD_cons_succ]
      exact List.mem_cons_of_mem a (ih n d (by simpa using h))

lemma nodup_getD_ne : ∀ (l : List Int), l.Nodup → ∀ i j : Nat, i < l.length →
    j < l.length → i ≠ j → l.getD i 0 ≠ l.getD j 0 := by
  intro l
  induction l with
  | nil => intro _ i j h; simp at h
  | cons a t ih =>
    intro hnd i j hi hj hij
    have ha : a ∉ t := (List.nodup_cons.mp hnd).1
    have ht : t.Nodup := (List.nodup_cons.mp hnd).2
    cases i with
    | zero =>
      cases j with
      | zero => omega
      | succ m =>
        simp only [List.getD_cons_zero, List.getD_cons_succ]
        intro h
        exact ha (h ▸ getD_mem t m 0 (by simpa using hj))
    | succ n =>
      cases j with
      | zero =>
        simp only [List.getD_cons_zero, List.getD_cons_succ]
        intro h
        exact ha (h ▸ getD_mem t n 0 (by simpa using hi))
      | succ m =>
        simp only [List.getD_cons_succ]
        exact ih ht n m (by simpa using hi) (by simpa using hj) (by omega)

lemma repairFrom_inv (items : List Int) (hnd : items.Nodup) (hn : 2 ≤ items.length) :
    ∀ (fuel i : Nat) (r : List Int), i + fuel = items.length → r.Perm items →
      (∀ k, k < i → r.getD k 0 ≠ items.getD k 0) →
      (repairFrom items r i fuel).Perm items ∧
        ∀ k, k < items.length → (repairFrom items r i fuel).getD k 0 ≠ items.getD k 0 := by
  intro fuel
  induction fuel with
  | zero =>
    intro i r htot hperm hinv
    refine ⟨by simpa [repairFrom] using hperm, ?_⟩
    intro k hk
    simpa [repairFrom] using hinv k (by omega)
  | succ f ih =>
    intro i r htot hperm hinv
    have hi : i < items.length := by omega
    have hrlen : r.length = items.length := hperm.length_eq
    have hrnd : r.Nodup := (hperm.nodup_iff).mpr hnd
    have hstep : repairFrom items r i (f + 1) = repairFrom items (repairStep items r i) (i + 1) f := rfl
    rw [hstep]
    by_cases hfix : items.getD i 0 = r.getD i 0
    · -- fixed point at position i: swap with position (i+1) % n
      have hjdef : repairStep items r i = swapAt r i ((i + 1) % items.length) := by
        unfold repairStep
        rw [if_pos hfix]
      set j := (i + 1) % items.length with hj
      have hjlt : j < items.length := Nat.mod_lt _ (by omega)
      have hij : i ≠ j := by
        rcases Nat.lt_or_ge (i + 1) items.length with h | h
        · rw [hj, Nat.mod_eq_of_lt h]; omega
        · have hieq : i + 1 = items.length := by omega
          have : j = 0 := by rw [hj, hieq, Nat.mod_self]
          omega
      have hperm' : (swapAt r i j).Perm items :=
        (swapAt_perm r i j hij (by omega) (by omega)).trans hperm
      rw [hjdef]
      apply ih (i + 1) (swapAt r i j) (by omega) hperm'
      intro k hk
      rcases Nat.lt_or_ge k i with hki | hki
      · by_cases hkj : k = j
        · -- the wrap-around write: position j receives old r[i] = items[i]
          rw [hkj, swapAt_getD_snd r i j (by omega), ← hfix]
          exact nodup_getD_ne items hnd i j hi (by omega) hij
        · rw [swapAt_getD_other r i j k (by omega) hkj]
          exact hinv k hki
      · have hki' : k = i := by omega
        rw [hki', swapAt_getD_fst r i j hij (by omega), hfix]
        exact nodup_getD_ne r hrnd j i (by omega) (by omega) (fun h => hij h.symm)
    · have hjdef : repairStep items r i = r := by
        unfold repairStep
        rw [if_neg hfix]
      rw [hjdef]
      apply ih (i + 1) r (by omega) hperm
      intro k hk
      rcases Nat.lt_or_ge k i with hki | hki
      · exact hinv k hki
      · have hki' : k = i := by omega
        rw [hki']
        exact fun h => hfix h.symm

lemma repair_spec (items r : List Int) (hnd : items.Nodup) (hn : 2 ≤ items.length)
    (hperm : r.Perm items) :
    (repairFixedPoints items r).Perm items ∧
      ∀ k, k < items.length → (repairFixedPoints items r).getD k 0 ≠ items.getD k 0 :=
  repairFrom_inv items hnd hn items.length 0 r (by omega) hperm
    (fun k hk => absurd hk (Nat.not_lt_zero k))

lemma zip_any_eq_false : ∀ (l₁ l₂ : List Int), l₁.length = l₂.length →
    (∀ k, k < l₁.length → l₁.getD k 0 ≠ l₂.getD k 0) →
    ((l₁.zip l₂).any fun p => decide (p.1 = p.2)) = false := by
  intro l₁
  induction l₁ with
  | nil => intro l₂ _ _; simp
  | cons a t ih =>
    intro l₂ hlen h
    cases l₂ with
    | nil => simp at hlen
    | cons b s =>
      simp only [List.zip_cons_cons, List.any_cons, Bool.or_eq_false_iff]
      constructor
      · simpa using h 0 (by simp)
      · exact ih s (by simpa using hlen)
          (fun k hk => by simpa using h (k + 1) (by simpa using hk))

lemma mem_ne_of_any_eq_false (l : List (Int × Int))
    (h : (l.any fun p => decide (p.1 = p.2)) = false) : ∀ p ∈ l, p.1 ≠ p.2 := by
  intro p hp heq
  have : (l.any fun p => decide (p.1 = p.2)) = true :=
    List.any_eq_true.mpr ⟨p, hp, by simpa using heq⟩
  rw [h] at this
  simp at this

/-- Core characterisation of every successful `make_derangement` run: it
returns pairs whose givers are exactly `items` in order, whose receivers are a
permutation of `items`, and which contain no fixed point. -/
lemma make_derangement_spec (items : List Int) (shuffles : List (List Int))
    (finalShuffle : List Int) (hnd : items.Nodup) (hn : 3 ≤ items.length)
    (hsh : ∀ r ∈ shuffles, r.Perm items) (hfin : finalShuffle.Perm items) :
    ∃ prs, make_derangement items shuffles finalShuffle = .ok prs ∧
      prs.map Prod.fst = items ∧ (prs.map Prod.snd).Perm items ∧
      ∀ p ∈ prs, p.1 ≠ p.2 := by
  unfold make_derangement
  rw [if_neg (by omega)]
  cases hfind : (shuffles.take 2000).find? (fun r => derangementOk items r) with
  | some r =>
    have hmem : r ∈ shuffles := List.take_subset _ _ (List.mem_of_find?_eq_some hfind)
    have hperm : r.Perm items := hsh r hmem
    have hlen : items.length = r.length := hperm.length_eq.symm
    have hok : derangementOk items r = true := List.find?_some hfind
    refine ⟨items.zip r, rfl, ?_, ?_, ?_⟩
    · exact List.map_fst_zip items r (le_of_eq hlen)
    · rw [List.map_snd_zip items r (le_of_eq hlen.symm)]
      exact hperm
    · intro p hp
      have := List.all_eq_true.mp hok p hp
      simpa using this
  | none =>
    have hspec := repair_spec items finalShuffle hnd (by omega) hfin
    set r := repairFixedPoints items finalShuffle with hr
    have hperm : r.Perm items := hspec.1
    have hlen : items.length = r.length := hperm.length_eq.symm
    have hany : ((items.zip r).any fun p => decide (p.1 = p.2)) = false :=
      zip_any_eq_false items r hlen (fun k hk => fun h => hspec.2 k hk h.symm)
    rw [hany]
    simp only [Bool.false_eq_true, if_false]
    refine ⟨items.zip r, rfl, ?_, ?_, ?_⟩
    · exact List.map_fst_zip items r (le_of_eq hlen)
    · rw [List.map_snd_zip items r (le_of_eq hlen.symm)]
      exact hperm
    · exact mem_ne_of_any_eq_false _ hany

/-- C1: for every list of pairwise-distinct identifiers of size n ≥ 3 and any
shuffle outcomes, `make_derangement` returns a list of (giver, receiver)
pairs that is a bijection on the input set with no fixed point: the givers
are exactly the input identifiers in order (hence each appears exactly once
as giver), the receivers are a permutation of the identifiers (each appears
exactly once as receiver), and every pair has giver ≠ receiver. -/
theorem C1_make_derangement_bijection (items : List Int) (shuffles : List (List Int))
    (finalShuffle : List Int) (hnd : items.Nodup) (hn : 3 ≤ items.length)
    (hsh : ∀ r ∈ shuffles, r.Perm items) (hfin : finalShuffle.Perm items) :
    ∃ prs, make_derangement items shuffles finalShuffle = .ok prs ∧
      prs.map Prod.fst = items ∧ (prs.map Prod.snd).Perm items ∧
      ∀ p ∈ prs, p.1 ≠ p.2 :=
  make_derangement_spec items shuffles finalShuffle hnd hn hsh hfin

/-- Witness for C1 at items = [1, 2, 3] with an accepted first shuffle. -/
theorem C1_witness :
    ([1, 2, 3] : List Int).Nodup ∧
    ∃ prs, make_derangement [1, 2, 3] [[2, 3, 1]] [1, 2, 3] = .ok prs ∧
      prs.map Prod.fst = [1, 2, 3] ∧ (prs.map Prod.snd).Perm [1, 2, 3] ∧
      ∀ p ∈ prs, p.1 ≠ p.2 :=
  ⟨by decide, C1_make_derangement_bijection [1, 2, 3] [[2, 3, 1]] [1, 2, 3]
    (by decide) (by decide) (by decide) (by decide)⟩

/-- C10: under the n ≥ 3 distinct-identifier precondition the deterministic
fallback repair leaves no fixed point at any position, so the final failure
branch (`RuntimeError("Failed to create valid assignment")`) is unreachable:
`make_derangement` never returns that error. -/
theorem C10_fallback_repair_total (items : List Int) (shuffles : List (List Int))
    (finalShuffle : List Int) (hnd : items.Nodup) (hn : 3 ≤ items.length)
    (hfin : finalShuffle.Perm items) :
    (∀ k, k < items.length →
        (repairFixedPoints items finalShuffle).getD k 0 ≠ items.getD k 0) ∧
    make_derangement items shuffles finalShuffle ≠ .error .failedToCreate := by
  have hspec := repair_spec items finalShuffle hnd (by omega) hfin
  refine ⟨hspec.2, ?_⟩
  unfold make_derangement
  rw [if_neg (by omega)]
  cases hfind : (shuffles.take 2000).find? (fun r => derangementOk items r) with
  | some r => simp
  | none =>
    have hlen : items.length = (repairFixedPoints items finalShuffle).length :=
      hspec.1.length_eq.symm
    have hany : ((items.zip (repairFixedPoints items finalShuffle)).any
        fun p => decide (p.1 = p.2)) = false :=
      zip_any_eq_false _ _ hlen (fun k hk h => hspec.2 k hk h.symm)
    rw [hany]
    simp

/-- Witness for C10 at items = [1, 2, 3] with no accepted shuffle, so that
the fallback repair actually runs (on [1, 2, 3] itself, the worst case). -/
theorem C10_witness :
    ([1, 2, 3] : List Int).Nodup ∧
    (∀ k, k < ([1, 2, 3] : List Int).length →
        (repairFixedPoints [1, 2, 3] [1, 2, 3]).getD k 0 ≠ ([1, 2, 3] : List Int).getD k 0) ∧
    make_derangement [1, 2, 3] [] [1, 2, 3] ≠ .error .failedToCreate :=
  ⟨by decide, C10_fallback_repair_total [1, 2, 3] [] [1, 2, 3]
    (by decide) (by decide) (by decide)⟩

/-- C2: with fewer than 3 identifiers (n = 0, 1 or 2) `make_derangement`
raises `ValueError("Need at least 3 participants")` before producing any
output, and `cmd_draw` with fewer than 3 active participants for the bound
chat replies "Нужно минимум 3 зарегистрированных участника..." and leaves
the whole database — in particular the stored pair set — unchanged. -/
theorem C2_insufficient_participants (items : List Int) (shuffles : List (List Int))
    (finalShuffle : List Int) (db : DB) (admins : List Int) (uid : Option Int)
    (effChat : Option Int) (chat : Int) (deliver : Int → Option String) :
    (items.length < 3 →
      make_derangement items shuffles finalShuffle = .error .needAtLeast3) ∧
    (is_admin admins uid = true → ensure_in_bound_chat db effChat = .ok chat →
      (active_participants db chat).length < 3 →
      cmd_draw db admins uid effChat shuffles finalShuffle deliver =
        (db, .needThree, [], [])) := by
  constructor
  · intro h
    unfold make_derangement
    rw [if_pos h]
  · intro ha he hl
    unfold cmd_draw
    rw [ha, he]
    simp only [not_true_eq_false, Bool.false_eq_true, if_false]
    rw [if_pos hl]

/-- Witness for C2: two active participants for the bound chat 100 and the
empty identifier list. -/
theorem C2_witness :
    make_derangement ([1, 2] : List Int) [] [] = .error .needAtLeast3 ∧
    cmd_draw (DB.mk [ChatRow.mk 100 "m" 0]
        [ParticipantRow.mk 100 1 none "A" 1 none, ParticipantRow.mk 100 2 none "B" 1 none]
        [PairRow.mk 100 1 2] [] 1) [9] (some 9) (some 100) [] [] (fun _ => none) =
      (DB.mk [ChatRow.mk 100 "m" 0]
        [ParticipantRow.mk 100 1 none "A" 1 none, ParticipantRow.mk 100 2 none "B" 1 none]
        [PairRow.mk 100 1 2] [] 1, .needThree, [], []) :=
  ⟨(C2_insufficient_participants [1, 2] [] [] (DB.mk [] [] [] [] 0) [] none none 0
      (fun _ => none)).1 (by decide),
    (C2_insufficient_participants [] [] []
      (DB.mk [ChatRow.mk 100 "m" 0]
        [ParticipantRow.mk 100 1 none "A" 1 none, ParticipantRow.mk 100 2 none "B" 1 none]
        [PairRow.mk 100 1 2] [] 1) [9] (some 9) (some 100) 100 (fun _ => none)).2
      (by decide) (by rfl) (by decide)⟩

/-- Shared characterisation of a successful `cmd_draw` run (admin, bound
chat, ≥ 3 active participants, derangement obtained). -/
lemma cmd_draw_success (db : DB) (admins : List Int) (uid : Option Int)
    (effChat : Option Int) (shuffles : List (List Int)) (finalShuffle : List Int)
    (deliver : Int → Option String) (chat : Int) (prs : List (Int × Int))
    (ha : is_admin admins uid = true)
    (he : ensure_in_bound_chat db effChat = .ok chat)
    (hl : ¬ (active_participants db chat).length < 3)
    (hmd : make_derangement ((active_participants db chat).map fun p => p.user_id)
      shuffles finalShuffle = .ok prs) :
    cmd_draw db admins uid effChat shuffles finalShuffle deliver =
      (persist_pairs db chat prs,
        if (notify_failures prs deliver).isEmpty then .allSent else .someFailed,
        prs.map fun p => p.1,
        notify_failures prs deliver) := by
  unfold cmd_draw
  rw [ha, he]
  simp only [not_true_eq_false, Bool.false_eq_true, if_false]
  rw [if_neg hl, hmd]

/-- After `persist_pairs`, the rows for the drawn chat are exactly the
freshly inserted ones. -/
lemma persist_pairs_filter_eq (db : DB) (chat : Int) (prs : List (Int × Int)) :
    (persist_pairs db chat prs).pairs.filter (fun pr => decide (pr.chat_id = chat)) =
      prs.map fun p => PairRow.mk chat p.1 p.2 := by
  have h1 : (db.pairs.filter fun pr => decide (pr.chat_id ≠ chat)).filter
      (fun pr => decide (pr.chat_id = chat)) = [] := by
    rw [List.filter_eq_nil_iff]
    intro pr hpr
    have hm := List.mem_filter.mp hpr
    simp only [decide_eq_true_eq] at hm ⊢
    exact hm.2
  have h2 : (prs.map fun p => PairRow.mk chat p.1 p.2).filter
      (fun pr => decide (pr.chat_id = chat)) = prs.map fun p => PairRow.mk chat p.1 p.2 := by
    rw [List.filter_eq_self]
    intro pr hpr
    rcases List.mem_map.mp hpr with ⟨p, -, rfl⟩
    simp
  show ((db.pairs.filter fun pr => decide (pr.chat_id ≠ chat)) ++
      (prs.map fun p => PairRow.mk chat p.1 p.2)).filter
        (fun pr => decide (pr.chat_id = chat)) = prs.map fun p => PairRow.mk chat p.1 p.2
  rw [List.filter_append, h1, h2, List.nil_append]

/-- C8: a successful draw fully replaces the persisted pair set for the
chat: afterwards the pairs table holds the other chats' rows plus exactly
one row per new derangement pair, and filtering to the drawn chat returns
exactly the new derangement — no row of any prior draw survives. -/
theorem C8_draw_replaces_pairs (db : DB) (admins : List Int) (uid : Option Int)
    (effChat : Option Int) (shuffles : List (List Int)) (finalShuffle : List Int)
    (deliver : Int → Option String) (chat : Int)
    (ha : is_admin admins uid = true)
    (he : ensure_in_bound_chat db effChat = .ok chat)
    (hl : 3 ≤ (active_participants db chat).length)
    (hnd : ((active_participants db chat).map fun p => p.user_id).Nodup)
    (hsh : ∀ r ∈ shuffles, r.Perm ((active_participants db chat).map fun p => p.user_id))
    (hfin : finalShuffle.Perm ((active_participants db chat).map fun p => p.user_id)) :
    ∃ prs, make_derangement ((active_participants db chat).map fun p => p.user_id)
        shuffles finalShuffle = .ok prs ∧
      (cmd_draw db admins uid effChat shuffles finalShuffle deliver).1.pairs =
        db.pairs.filter (fun pr => decide (pr.chat_id ≠ chat)) ++
          (prs.map fun p => PairRow.mk chat p.1 p.2) ∧
      (cmd_draw db admins uid effChat shuffles finalShuffle deliver).1.pairs.filter
          (fun pr => decide (pr.chat_id = chat)) =
        prs.map fun p => PairRow.mk chat p.1 p.2 := by
  obtain ⟨prs, hmd, -, -, -⟩ :=
    make_derangement_spec ((active_participants db chat).map fun p => p.user_id)
      shuffles finalShuffle hnd (by simpa using hl) hsh hfin
  refine ⟨prs, hmd, ?_, ?_⟩
  · rw [cmd_draw_success db admins uid effChat shuffles finalShuffle deliver chat prs
      ha he (by omega) hmd]
    rfl
  · rw [cmd_draw_success db admins uid effChat shuffles finalShuffle deliver chat prs
      ha he (by omega) hmd]
    exact persist_pairs_filter_eq db chat prs

/-- Witness for C8 on `drawDB`: the stale pair (100, 1, 2) is gone, chat
200's pair survives, and chat 100's rows are exactly the new derangement. -/
theorem C8_witness :
    ∃ prs, make_derangement ((active_participants drawDB 100).map fun p => p.user_id)
        [[2, 3, 1]] [1, 2, 3] = .ok prs ∧
      (cmd_draw drawDB [9] (some 9) (some 100) [[2, 3, 1]] [1, 2, 3] (fun _ => none)).1.pairs =
        drawDB.pairs.filter (fun pr => decide (pr.chat_id ≠ 100)) ++
          (prs.map fun p => PairRow.mk 100 p.1 p.2) ∧
      (cmd_draw drawDB [9] (some 9) (some 100) [[2, 3, 1]] [1, 2, 3] (fun _ => none)).1.pairs.filter
          (fun pr => decide (pr.chat_id = 100)) =
        prs.map fun p => PairRow.mk 100 p.1 p.2 :=
  C8_draw_replaces_pairs drawDB [9] (some 9) (some 100) [[2, 3, 1]] [1, 2, 3]
    (fun _ => none) 100 (by decide) (by rfl) (by decide) (by decide) (by decide) (by decide)

/-- C9: delivery failures never block or alter persistence and are mutually
fault-isolated: the database produced by `cmd_draw` is the same for any two
delivery oracles (the pair set is persisted independently of delivery
outcomes), every giver is attempted exactly once (the attempt list is the
giver list of the derangement, without duplicates) no matter which
deliveries fail, the failures are collected per recipient, the admin report
says `someFailed` exactly when the collected list is nonempty, and the
chat's persisted rows remain exactly the new derangement. -/
theorem C9_delivery_fault_isolation (db : DB) (admins : List Int) (uid : Option Int)
    (effChat : Option Int) (shuffles : List (List Int)) (finalShuffle : List Int)
    (deliver deliver' : Int → Option String) (chat : Int)
    (ha : is_admin admins uid = true)
    (he : ensure_in_bound_chat db effChat = .ok chat)
    (hl : 3 ≤ (active_participants db chat).length)
    (hnd : ((active_participants db chat).map fun p => p.user_id).Nodup)
    (hsh : ∀ r ∈ shuffles, r.Perm ((active_participants db chat).map fun p => p.user_id))
    (hfin : finalShuffle.Perm ((active_participants db chat).map fun p => p.user_id)) :
    ∃ prs, make_derangement ((active_participants db chat).map fun p => p.user_id)
        shuffles finalShuffle = .ok prs ∧
      (cmd_draw db admins uid effChat shuffles finalShuffle deliver).1 =
        (cmd_draw db admins uid effChat shuffles finalShuffle deliver').1 ∧
      (cmd_draw db admins uid effChat shuffles finalShuffle deliver).2.2.1 =
        (prs.map fun p => p.1) ∧
      ((cmd_draw db admins uid effChat shuffles finalShuffle deliver).2.2.1).Nodup ∧
      (cmd_draw db admins uid effChat shuffles finalShuffle deliver).2.2.2 =
        notify_failures prs deliver ∧
      (cmd_draw db admins uid effChat shuffles finalShuffle deliver).2.1 =
        (if (notify_failures prs deliver).isEmpty then DrawReply.allSent
          else DrawReply.someFailed) ∧
      (cmd_draw db admins uid effChat shuffles finalShuffle deliver).1.pairs.filter
          (fun pr => decide (pr.chat_id = chat)) =
        prs.map fun p => PairRow.mk chat p.1 p.2 := by
  obtain ⟨prs, hmd, hfst, -, -⟩ :=
    make_derangement_spec ((active_participants db chat).map fun p => p.user_id)
      shuffles finalShuffle hnd (by simpa using hl) hsh hfin
  have h1 := cmd_draw_success db admins uid effChat shuffles finalShuffle deliver chat prs
    ha he (by omega) hmd
  have h2 := cmd_draw_success db admins uid effChat shuffles finalShuffle deliver' chat prs
    ha he (by omega) hmd
  refine ⟨prs, hmd, ?_, ?_, ?_, ?_, ?_, ?_⟩
  · rw [h1, h2]
  · rw [h1]
  · rw [h1]
    have hfst' : (prs.map fun p => p.1) = prs.map Prod.fst := rfl
    rw [hfst', hfst]
    exact hnd
  · rw [h1]
  · rw [h1]
  · rw [h1]
    exact persist_pairs_filter_eq db chat prs

/-- Witness for C9 on `drawDB`: one oracle where delivery to giver 1 fails
and one where everything succeeds. -/
theorem C9_witness :
    ∃ prs, make_derangement ((active_participants drawDB 100).map fun p => p.user_id)
        [[2, 3, 1]] [1, 2, 3] = .ok prs ∧
      (cmd_draw drawDB [9] (some 9) (some 100) [[2, 3, 1]] [1, 2, 3]
          (fun g => if g = 1 then some ("blocked") else none)).1 =
        (cmd_draw drawDB [9] (some 9) (some 100) [[2, 3, 1]] [1, 2, 3] (fun _ => none)).1 ∧
      (cmd_draw drawDB [9] (some 9) (some 100) [[2, 3, 1]] [1, 2, 3]
          (fun g => if g = 1 then some ("blocked") else none)).2.2.1 =
        (prs.map fun p => p.1) ∧
      ((cmd_draw drawDB [9] (some 9) (some 100) [[2, 3, 1]] [1, 2, 3]
          (fun g => if g = 1 then some ("blocked") else none)).2.2.1).Nodup ∧
      (cmd_draw drawDB [9] (some 9) (some 100) [[2, 3, 1]] [1, 2, 3]
          (fun g => if g = 1 then some ("blocked") else none)).2.2.2 =
        notify_failures prs (fun g => if g = 1 then some ("blocked") else none) ∧
      (cmd_draw drawDB [9] (some 9) (some 100) [[2, 3, 1]] [1, 2, 3]
          (fun g => if g = 1 then some ("blocked") else none)).2.1 =
        (if (notify_failures prs (fun g => if g = 1 then some ("blocked") else none)).isEmpty
          then DrawReply.allSent else DrawReply.someFailed) ∧
      (cmd_draw drawDB [9] (some 9) (some 100) [[2, 3, 1]] [1, 2, 3]
          (fun g => if g = 1 then some ("blocked") else none)).1.pairs.filter
          (fun pr => decide (pr.chat_id = 100)) =
        prs.map fun p => PairRow.mk 100 p.1 p.2 :=
  C9_delivery_fault_isolation drawDB [9] (some 9) (some 100) [[2, 3, 1]] [1, 2, 3]
    (fun g => if g = 1 then some ("blocked") else none) (fun _ => none) 100
    (by decide) (by rfl) (by decide) (by decide) (by decide) (by decide)

/-- With a chat bound and a `join_`-prefixed payload, `cmd_start` is exactly
`redeem` on the stripped token. -/
lemma cmd_start_eq_redeem (db : DB) (user : UserInfo) (payload : String) (bound : Int)
    (hb : get_bound_chat_id db = some bound)
    (hpre : startsWithJoin payload = true) :
    cmd_start db user payload = redeem db user (dropJoinPrefix payload) bound := by
  unfold cmd_start
  rw [hb]
  simp only [hpre, not_true_eq_false, Bool.false_eq_true, if_false]

/-- C4: the `/start join_<token>` flow applies its three checks in exactly
the order InvalidToken, ChatMismatch, RegistrationClosed — a missing token
reports `invalidToken` unconditionally, a foreign token reports
`chatMismatch` whether or not it is open, a closed token of the bound chat
reports `registrationClosed` — and only when all three pass does it upsert
the participant row for (owning chat, user) (`enroll`, which sets
is_active = 1 and refreshes handle and name).  Every failure path returns
the database unchanged, in particular the participants table. -/
theorem C4_redeem_check_order (db : DB) (user : UserInfo) (payload : String) (bound : Int)
    (hb : get_bound_chat_id db = some bound)
    (hpre : startsWithJoin payload = true) :
    (find_token db (dropJoinPrefix payload) = none →
      cmd_start db user payload = (db, .invalidToken)) ∧
    (∀ row, find_token db (dropJoinPrefix payload) = some row → row.chat_id ≠ bound →
      cmd_start db user payload = (db, .chatMismatch)) ∧
    (∀ row, find_token db (dropJoinPrefix payload) = some row → row.chat_id = bound →
      row.is_open ≠ 1 → cmd_start db user payload = (db, .registrationClosed)) ∧
    (∀ row, find_token db (dropJoinPrefix payload) = some row → row.chat_id = bound →
      row.is_open = 1 → cmd_start db user payload = (enroll db bound user, .enrolled)) := by
  have hred := cmd_start_eq_redeem db user payload bound hb hpre
  refine ⟨?_, ?_, ?_, ?_⟩
  · intro hfind
    rw [hred]
    unfold redeem
    rw [hfind]
  · intro row hfind hne
    rw [hred]
    unfold redeem
    rw [hfind]
    simp only [if_pos hne]
  · intro row hfind hchat hopen
    rw [hred]
    unfold redeem
    simp only [hfind, if_neg (show ¬(row.chat_id ≠ bound) from fun h => h hchat),
      if_pos hopen]
  · intro row hfind hchat hopen
    rw [hred]
    unfold redeem
    simp only [hfind, if_neg (show ¬(row.chat_id ≠ bound) from fun h => h hchat),
      if_neg (show ¬(row.is_open ≠ 1) from fun h => h hopen), hchat,
      if_neg (show ¬(bound ≠ bound) from fun h => h rfl)]

/-- Witness for C4: with both the chat-mismatch and the closed condition
violated, the reply is `chatMismatch` — the chat check runs first — and the
database is unchanged. -/
theorem C4_witness :
    cmd_start dbC4 (UserInfo.mk 7 none "Bob") "join_t1" = (dbC4, .chatMismatch) :=
  (C4_redeem_check_order dbC4 (UserInfo.mk 7 none "Bob") "join_t1" 100
      (by rfl) (by decide)).2.1 (TokenRow.mk "t1" 200 0) (by rfl) (by decide)

/-- Filtering commutes with mapping a function that preserves the filter
predicate. -/
lemma filter_map_comm {α : Type} (g : α → α) (k : α → Bool) (hk : ∀ p, k (g p) = k p) :
    ∀ ps : List α, (ps.map g).filter k = (ps.filter k).map g := by
  intro ps
  induction ps with
  | nil => rfl
  | cons p t ih =>
    simp only [List.map_cons, List.filter_cons, hk p]
    cases hkp : k p <;> simp [hkp, ih]

/-- Under the participants primary key, at most one row matches a given
(chat, user) pair, so a successful `any` pins the filter down to one row. -/
lemma unique_filter_key (chat user : Int) :
    ∀ ps : List ParticipantRow, participants_key_unique ps →
      ps.any (fun p => decide (p.chat_id = chat ∧ p.user_id = user)) = true →
      ∃ p0, ps.filter (fun p => decide (p.chat_id = chat ∧ p.user_id = user)) = [p0] := by
  intro ps
  induction ps with
  | nil => intro _ h; simp at h
  | cons p t ih =>
    intro huniq hany
    have hrel := (List.pairwise_cons.mp huniq).1
    have htail := (List.pairwise_cons.mp huniq).2
    by_cases hk : p.chat_id = chat ∧ p.user_id = user
    · refine ⟨p, ?_⟩
      rw [List.filter_cons, if_pos (by simpa using hk)]
      have hnil : t.filter (fun p => decide (p.chat_id = chat ∧ p.user_id = user)) = [] := by
        rw [List.filter_eq_nil_iff]
        intro q hq hkq
        simp only [decide_eq_true_eq] at hkq
        exact hrel q hq ⟨hk.1.trans hkq.1.symm, hk.2.trans hkq.2.symm⟩
      rw [hnil]
    · rw [List.filter_cons, if_neg (by simpa using hk)]
      apply ih htail
      have := List.any_eq_true.mp hany
      rcases this with ⟨q, hq, hkq⟩
      rcases List.mem_cons.mp hq with rfl | hq'
      · exact absurd (by simpa using hkq) hk
      · exact List.any_eq_true.mpr ⟨q, hq', hkq⟩

/-- After an upsert, the rows matching the upserted key are exactly one row
carrying the new username, name and active flag (the wishlist column is
whatever the pre-existing row had, or NULL for a fresh row). -/
lemma upsert_filter_key (ps : List ParticipantRow) (chat user : Int)
    (u : Option String) (f : String) (huniq : participants_key_unique ps) :
    ∃ w, (upsert_participant ps chat user u f).filter
        (fun p => decide (p.chat_id = chat ∧ p.user_id = user)) =
      [ParticipantRow.mk chat user u f 1 w] := by
  unfold upsert_participant
  by_cases hany : ps.any (fun p => decide (p.chat_id = chat ∧ p.user_id = user)) = true
  · rw [if_pos hany]
    have hk : ∀ p : ParticipantRow,
        (fun p : ParticipantRow => decide (p.chat_id = chat ∧ p.user_id = user))
          (if p.chat_id = chat ∧ p.user_id = user then
            { p with username := u, full_name := f, is_active := 1 } else p) =
        decide (p.chat_id = chat ∧ p.user_id = user) := by
      intro p
      by_cases hp : p.chat_id = chat ∧ p.user_id = user <;> simp [hp]
    rw [filter_map_comm _ _ hk ps]
    obtain ⟨p0, hp0⟩ := unique_filter_key chat user ps huniq hany
    rw [hp0]
    have hmem := List.mem_filter.mp (hp0 ▸ List.mem_singleton_self p0)
    have hkey : p0.chat_id = chat ∧ p0.user_id = user := by simpa using hmem.2
    refine ⟨p0.wishlist, ?_⟩
    simp only [List.map_cons, List.map_nil, if_pos hkey]
    rw [hkey.1, hkey.2]
  · rw [if_neg hany]
    refine ⟨none, ?_⟩
    rw [List.filter_append]
    have hnil : ps.filter (fun p => decide (p.chat_id = chat ∧ p.user_id = user)) = [] := by
      rw [List.filter_eq_nil_iff]
      intro q hq hkq
      exact hany (List.any_eq_true.mpr ⟨q, hq, hkq⟩)
    rw [hnil]
    simp

/-- The participants upsert is idempotent: repeating it with the same values
changes nothing further. -/
lemma upsert_idem (ps : List ParticipantRow) (chat user : Int) (u : Option String)
    (f : String) :
    upsert_participant (upsert_participant ps chat user u f) chat user u f =
      upsert_participant ps chat user u f := by
  unfold upsert_participant
  by_cases hany : ps.any (fun p => decide (p.chat_id = chat ∧ p.user_id = user)) = true
  · rw [if_pos hany]
    have hex := List.any_eq_true.mp hany
    rcases hex with ⟨q, hq, hkq⟩
    have hkey : q.chat_id = chat ∧ q.user_id = user := by simpa using hkq
    have hany2 : ((ps.map fun p =>
        if p.chat_id = chat ∧ p.user_id = user then
          { p with username := u, full_name := f, is_active := 1 } else p).any
          fun p => decide (p.chat_id = chat ∧ p.user_id = user)) = true := by
      apply List.any_eq_true.mpr
      refine ⟨if q.chat_id = chat ∧ q.user_id = user then
        { q with username := u, full_name := f, is_active := 1 } else q,
        List.mem_map_of_mem _ hq, ?_⟩
      rw [if_pos hkey]
      simpa using hkey
    rw [if_pos hany2, List.map_map]
    apply List.map_congr_left
    intro p _
    by_cases hp : p.chat_id = chat ∧ p.user_id = user <;> simp [hp]
  · rw [if_neg hany]
    have hany2 : ((ps ++ [ParticipantRow.mk chat user u f 1 none]).any
        fun p => decide (p.chat_id = chat ∧ p.user_id = user)) = true := by
      apply List.any_eq_true.mpr
      exact ⟨ParticipantRow.mk chat user u f 1 none, by simp, by simp⟩
    rw [if_pos hany2, List.map_append]
    have h1 : (ps.map fun p =>
        if p.chat_id = chat ∧ p.user_id = user then
          { p with username := u, full_name := f, is_active := 1 } else p) = ps := by
      have := List.map_congr_left (l := ps)
        (f := fun p : ParticipantRow =>
          if p.chat_id = chat ∧ p.user_id = user then
            { p with username := u, full_name := f, is_active := 1 } else p)
        (g := id) ?_
      · simpa using this
      · intro p hp
        have hnk : ¬(p.chat_id = chat ∧ p.user_id = user) := by
          intro hk
          exact hany (List.any_eq_true.mpr ⟨p, hp, by simpa using hk⟩)
        simp [hnk]
    have h2 : ([ParticipantRow.mk chat user u f 1 none].map fun p =>
        if p.chat_id = chat ∧ p.user_id = user then
          { p with username := u, full_name := f, is_active := 1 } else p) =
        [ParticipantRow.mk chat user u f 1 none] := by
      simp
    rw [h1, h2]

/-- If a row with the upserted key already exists, the upsert only updates in
place: the number of participant rows is unchanged. -/
lemma upsert_length_mem (ps : List ParticipantRow) (chat user : Int) (u : Option String)
    (f : String) (hex : ∃ p ∈ ps, p.chat_id = chat ∧ p.user_id = user) :
    (upsert_participant ps chat user u f).length = ps.length := by
  unfold upsert_participant
  rcases hex with ⟨q, hq, hkq⟩
  rw [if_pos (List.any_eq_true.mpr ⟨q, hq, by simpa using hkq⟩)]
  exact List.length_map _ _

/-- The success case of `cmd_start`: chat bound, `join_` payload, existing
open token of the bound chat. -/
lemma cmd_start_success (db : DB) (user : UserInfo) (payload : String) (bound : Int)
    (row : TokenRow) (hb : get_bound_chat_id db = some bound)
    (hpre : startsWithJoin payload = true)
    (hfind : find_token db (dropJoinPrefix payload) = some row)
    (hchat : row.chat_id = bound) (hopen : row.is_open = 1) :
    cmd_start db user payload = (enroll db bound user, .enrolled) := by
  rw [cmd_start_eq_redeem db user payload bound hb hpre]
  unfold redeem
  simp only [hfind, if_neg (show ¬(row.chat_id ≠ bound) from fun h => h hchat),
    if_neg (show ¬(row.is_open ≠ 1) from fun h => h hopen), hchat,
    if_neg (show ¬(bound ≠ bound) from fun h => h rfl)]

/-- C5: redeeming a valid open token twice for the same user is idempotent —
the first redemption enrolls, the second changes nothing (so there is never
a duplicate row), the participants table afterwards has exactly one row for
(chat, user) with is_active = 1 and the freshly normalised handle and name,
and a pre-existing (possibly deactivated) row is updated in place, keeping
the table's length. -/
theorem C5_redeem_twice_idempotent (db : DB) (user : UserInfo) (payload : String)
    (bound : Int) (row : TokenRow)
    (huniq : participants_key_unique db.participants)
    (hb : get_bound_chat_id db = some bound)
    (hpre : startsWithJoin payload = true)
    (hfind : find_token db (dropJoinPrefix payload) = some row)
    (hchat : row.chat_id = bound) (hopen : row.is_open = 1) :
    (cmd_start db user payload).2 = .enrolled ∧
    cmd_start (cmd_start db user payload).1 user payload =
      ((cmd_start db user payload).1, .enrolled) ∧
    (∃ w, (cmd_start db user payload).1.participants.filter
        (fun p => decide (p.chat_id = bound ∧ p.user_id = user.id)) =
      [ParticipantRow.mk bound user.id (stored_username user.username)
        (stored_full_name user.full_name) 1 w]) ∧
    ((∃ p ∈ db.participants, p.chat_id = bound ∧ p.user_id = user.id) →
      (cmd_start db user payload).1.participants.length = db.participants.length) := by
  have hsucc := cmd_start_success db user payload bound row hb hpre hfind hchat hopen
  rw [hsucc]
  have hb1 : get_bound_chat_id (enroll db bound user) = some bound := hb
  have hfind1 : find_token (enroll db bound user) (dropJoinPrefix payload) = some row := hfind
  have hsucc2 := cmd_start_success (enroll db bound user) user payload bound row
    hb1 hpre hfind1 hchat hopen
  refine ⟨rfl, ?_, ?_, ?_⟩
  · rw [hsucc2]
    have hidem := upsert_idem db.participants bound user.id
      (stored_username user.username) (stored_full_name user.full_name)
    show (enroll (enroll db bound user) bound user, StartReply.enrolled) =
      (enroll db bound user, StartReply.enrolled)
    unfold enroll
    simp only [hidem]
  · exact upsert_filter_key db.participants bound user.id
      (stored_username user.username) (stored_full_name user.full_name) huniq
  · intro hex
    exact upsert_length_mem db.participants bound user.id
      (stored_username user.username) (stored_full_name user.full_name) hex

/-- Witness for C5 on `dbC5`. -/
theorem C5_witness :
    (cmd_start dbC5 (UserInfo.mk 7 (some "Alice") "Alice A") "join_t1").2 = .enrolled ∧
    cmd_start (cmd_start dbC5 (UserInfo.mk 7 (some "Alice") "Alice A") "join_t1").1
        (UserInfo.mk 7 (some "Alice") "Alice A") "join_t1" =
      ((cmd_start dbC5 (UserInfo.mk 7 (some "Alice") "Alice A") "join_t1").1, .enrolled) ∧
    (∃ w, (cmd_start dbC5 (UserInfo.mk 7 (some "Alice") "Alice A") "join_t1").1.participants.filter
        (fun p => decide (p.chat_id = 100 ∧ p.user_id = (UserInfo.mk 7 (some "Alice") "Alice A").id)) =
      [ParticipantRow.mk 100 (UserInfo.mk 7 (some "Alice") "Alice A").id
        (stored_username (UserInfo.mk 7 (some "Alice") "Alice A").username)
        (stored_full_name (UserInfo.mk 7 (some "Alice") "Alice A").full_name) 1 w]) ∧
    ((∃ p ∈ dbC5.participants,
        p.chat_id = 100 ∧ p.user_id = (UserInfo.mk 7 (some "Alice") "Alice A").id) →
      (cmd_start dbC5 (UserInfo.mk 7 (some "Alice") "Alice A") "join_t1").1.participants.length =
        dbC5.participants.length) :=
  C5_redeem_twice_idempotent dbC5 (UserInfo.mk 7 (some "Alice") "Alice A") "join_t1"
    100 (TokenRow.mk "t1" 100 1)
    (by unfold participants_key_unique dbC5; decide) (by rfl) (by decide) (by rfl)
    (by decide) (by decide)

lemma open_close_self (chat : Int) : ∀ ts : List TokenRow,
    open_tokens_for (close_tokens_for ts chat) chat = [] := by
  intro ts
  induction ts with
  | nil => rfl
  | cons t rest ih =>
    unfold close_tokens_for open_tokens_for at ih ⊢
    simp only [List.map_cons, List.filter_cons]
    by_cases hc : t.chat_id = chat
    · rw [if_pos hc]
      simp only [decide_eq_true_eq]
      rw [if_neg (by simp)]
      exact ih
    · rw [if_neg hc]
      rw [if_neg (by simp [hc])]
      exact ih

lemma open_close_other (chat c : Int) (hc : c ≠ chat) : ∀ ts : List TokenRow,
    open_tokens_for (close_tokens_for ts chat) c = open_tokens_for ts c := by
  intro ts
  induction ts with
  | nil => rfl
  | cons t rest ih =>
    unfold close_tokens_for open_tokens_for at ih ⊢
    simp only [List.map_cons, List.filter_cons]
    by_cases htc : t.chat_id = chat
    · have h1 : ¬(t.chat_id = c ∧ t.is_open = 1) := by
        intro h
        apply hc
        rw [← h.1, htc]
      rw [if_pos htc]
      rw [if_neg (by simp), if_neg (by simpa using h1)]
      exact ih
    · rw [if_neg htc]
      by_cases hp : t.chat_id = c ∧ t.is_open = 1
      · rw [if_pos (by simpa using hp), if_pos (by simpa using hp)]
        rw [ih]
      · rw [if_neg (by simpa using hp), if_neg (by simpa using hp)]
        exact ih

lemma find_close (chat : Int) : ∀ ts : List TokenRow, tokens_key_unique ts →
    ∀ told ∈ ts, (close_tokens_for ts chat).find? (fun t => decide (t.token = told.token)) =
      some (if told.chat_id = chat then { told with is_open := 0 } else told) := by
  intro ts
  induction ts with
  | nil => intro _ told h; simp at h
  | cons t rest ih =>
    intro huniq told hmem
    have hrel := (List.pairwise_cons.mp huniq).1
    have htail := (List.pairwise_cons.mp huniq).2
    unfold close_tokens_for at ih ⊢
    simp only [List.map_cons]
    rcases List.mem_cons.mp hmem with rfl | hmem'
    · apply List.find?_cons_of_pos
      by_cases hc : told.chat_id = chat <;> simp [hc]
    · rw [List.find?_cons_of_neg]
      · exact ih htail told hmem'
      · have hne : t.token ≠ told.token := hrel told hmem'
        by_cases hc : t.chat_id = chat <;> simp [hc, hne]

/-- Characterisation of a fresh-token `create_join_token`: all of the chat's
tokens get closed, then the new open token is appended. -/
lemma create_join_token_fresh (db : DB) (chat : Int) (tok : String)
    (hfresh : ∀ t ∈ db.join_tokens, t.token ≠ tok) :
    create_join_token db chat tok =
      some { db with join_tokens :=
        close_tokens_for db.join_tokens chat ++ [TokenRow.mk tok chat 1] } := by
  simp only [create_join_token]
  rw [if_neg]
  intro hany
  rcases List.any_eq_true.mp hany with ⟨t', ht', htok⟩
  rcases List.mem_map.mp ht' with ⟨t, ht, rfl⟩
  have : t.token = tok := by
    by_cases hc : t.chat_id = chat
    · simpa [hc] using htok
    · simpa [hc] using htok
  exact hfresh t ht this

/-- C6: at most one token per chat is open, and the two token operations
preserve it.  `create_join_token` first closes every token of the chat and
then inserts the one fresh open token, so afterwards the chat's open-token
set is exactly the new token, the one-open-token invariant holds for every
chat, and redeeming any of the chat's previous tokens now fails with
`registrationClosed`.  `cmd_close_join` closes all of the chat's tokens
(leaving none open) and is a no-op on the token table when none were open. -/
theorem C6_single_open_token (db : DB) (chat : Int) (tok : String) (user : UserInfo)
    (admins : List Int) (uid : Option Int) (effChat : Option Int)
    (hfresh : ∀ t ∈ db.join_tokens, t.token ≠ tok)
    (huniq : tokens_key_unique db.join_tokens)
    (hmax : at_most_one_open db.join_tokens)
    (hadmin : is_admin admins uid = true)
    (hens : ensure_in_bound_chat db effChat = .ok chat) :
    (∃ db', create_join_token db chat tok = some db' ∧
      open_tokens_for db'.join_tokens chat = [TokenRow.mk tok chat 1] ∧
      at_most_one_open db'.join_tokens ∧
      (∀ told ∈ db.join_tokens, told.chat_id = chat →
        redeem db' user told.token chat = (db', .registrationClosed))) ∧
    cmd_close_join db admins uid effChat =
      ({ db with join_tokens := close_tokens_for db.join_tokens chat }, .closed) ∧
    open_tokens_for (close_tokens_for db.join_tokens chat) chat = [] ∧
    ((∀ t ∈ db.join_tokens, t.chat_id = chat → t.is_open = 0) →
      close_tokens_for db.join_tokens chat = db.join_tokens) := by
  refine ⟨?_, ?_, open_close_self chat db.join_tokens, ?_⟩
  · refine ⟨_, create_join_token_fresh db chat tok hfresh, ?_, ?_, ?_⟩
    · show open_tokens_for (close_tokens_for db.join_tokens chat ++ [TokenRow.mk tok chat 1])
        chat = [TokenRow.mk tok chat 1]
      unfold open_tokens_for
      rw [List.filter_append]
      have h1 := open_close_self chat db.join_tokens
      unfold open_tokens_for at h1
      rw [h1]
      simp
    · intro c
      show (open_tokens_for (close_tokens_for db.join_tokens chat ++ [TokenRow.mk tok chat 1])
        c).length ≤ 1
      unfold open_tokens_for
      rw [List.filter_append]
      by_cases hc : c = chat
      · subst hc
        have h1 := open_close_self c db.join_tokens
        unfold open_tokens_for at h1
        rw [h1]
        simp
      · have h2 := open_close_other chat c hc db.join_tokens
        unfold open_tokens_for at h2
        rw [h2]
        have h3 : [TokenRow.mk tok chat 1].filter
            (fun t => decide (t.chat_id = c ∧ t.is_open = 1)) = [] := by
          simp only [List.filter_cons, List.filter_nil]
          rw [if_neg (by simpa using (show ¬(chat = c ∧ (1 : Int) = 1) from
            fun h => hc h.1.symm))]
        rw [h3, List.append_nil]
        exact hmax c
    · intro told htold hchat
      unfold redeem find_token
      show (match (close_tokens_for db.join_tokens chat ++ [TokenRow.mk tok chat 1]).find?
          (fun t => decide (t.token = told.token)) with
        | none => _
        | some row => _) = _
      rw [List.find?_append, find_close chat db.join_tokens huniq told htold, if_pos hchat]
      simp only [Option.or_some]
      rw [if_neg (show ¬(told.chat_id ≠ chat) from fun h => h hchat)]
      rw [if_pos (show (0 : Int) ≠ 1 from by decide)]
  · unfold cmd_close_join
    rw [hadmin]
    simp only [not_true_eq_false, Bool.false_eq_true, if_false]
    rw [hens]
  · intro hall
    unfold close_tokens_for
    have := List.map_congr_left (l := db.join_tokens)
      (f := fun t : TokenRow => if t.chat_id = chat then { t with is_open := 0 } else t)
      (g := id) ?_
    · simpa using this
    · intro t ht
      by_cases hc : t.chat_id = chat
      · have h0 := hall t ht hc
        show (if t.chat_id = chat then ({ t with is_open := 0 } : TokenRow) else t) = id t
        rw [if_pos hc]
        show ({ t with is_open := 0 } : TokenRow) = t
        rw [← h0]
      · simp [hc]

/-- Witness for C6 on `dbC6` with fresh token "new1". -/
theorem C6_witness :
    (∃ db', create_join_token dbC6 100 "new1" = some db' ∧
      open_tokens_for db'.join_tokens 100 = [TokenRow.mk "new1" 100 1] ∧
      at_most_one_open db'.join_tokens ∧
      (∀ told ∈ dbC6.join_tokens, told.chat_id = 100 →
        redeem db' (UserInfo.mk 7 none "Bob") told.token 100 =
          (db', .registrationClosed))) ∧
    cmd_close_join dbC6 [9] (some 9) (some 100) =
      ({ dbC6 with join_tokens := close_tokens_for dbC6.join_tokens 100 }, .closed) ∧
    open_tokens_for (close_tokens_for dbC6.join_tokens 100) 100 = [] ∧
    ((∀ t ∈ dbC6.join_tokens, t.chat_id = 100 → t.is_open = 0) →
      close_tokens_for dbC6.join_tokens 100 = dbC6.join_tokens) :=
  C6_single_open_token dbC6 100 "new1" (UserInfo.mk 7 none "Bob") [9] (some 9) (some 100)
    (by decide) (by unfold tokens_key_unique dbC6; decide)
    (by
      intro c
      unfold open_tokens_for dbC6
      by_cases h1 : c = 100
      · subst h1; decide
      · by_cases h2 : c = 200
        · subst h2; decide
        · simp only [List.filter_cons, List.filter_nil]
          rw [if_neg (by simpa using (show ¬((100 : Int) = c ∧ (1 : Int) = 1) from
            fun h => h1 h.1.symm))]
          rw [if_neg (by simpa using (show ¬((200 : Int) = c ∧ (1 : Int) = 1) from
            fun h => h2 h.1.symm))]
          decide)
    (by decide) (by rfl)

set_option maxRecDepth 8192 in
/-- Counterexample for C7 as stated: for a caller who is NOT an active
participant, `cmd_wish` with a 601-character text replies `tooLong`
(WishlistTooLong), not `notAParticipant` — the length check runs before the
participant check; and with empty text it replies with the usage prompt.  So
"for every caller who is not an active participant, set_wishlist fails with
NotAParticipant" is false as a universal statement. -/
theorem C7_counterexample :
    (cmd_wish dbC7x 5 (aText 601)).2 = .tooLong ∧
    (cmd_wish dbC7x 5 (aText 601)).2 ≠ .notAParticipant ∧
    (cmd_wish dbC7x 5 "").2 = .usage := by
  decide

/-- C7 (amended): `cmd_wish` accepts and stores text of exactly 600
characters for an active participant; rejects text longer than 600
characters (in particular 601) with `tooLong`, leaving the database — hence
the stored wishlist — unchanged; and for a caller who is not an active
participant of the bound chat and submits nonempty text of at most 600
characters it fails with `notAParticipant` and modifies nothing. -/
theorem C7_wishlist_length_and_participant (db : DB) (uid : Int) (text : String)
    (bound : Int) (hb : get_bound_chat_id db = some bound) :
    (text.length = 600 → is_active_participant db bound uid = true →
      ∃ ps, cmd_wish db uid text = ({ db with participants := ps }, .saved) ∧
        ∀ p ∈ ps, p.chat_id = bound → p.user_id = uid → p.wishlist = some text) ∧
    (600 < text.length → cmd_wish db uid text = (db, .tooLong)) ∧
    (text ≠ "" → text.length ≤ 600 → is_active_participant db bound uid = false →
      cmd_wish db uid text = (db, .notAParticipant)) := by
  have hempty : ("" : String).length = 0 := rfl
  refine ⟨?_, ?_, ?_⟩
  · intro h600 hact
    have hne : text ≠ "" := by
      intro h
      rw [h, hempty] at h600
      omega
    refine ⟨db.participants.map (fun p =>
      if p.chat_id = bound ∧ p.user_id = uid then { p with wishlist := some text } else p),
      ?_, ?_⟩
    · simp only [cmd_wish, hb]
      rw [if_neg hne, if_neg (show ¬(600 < text.length) by omega),
        if_neg (show ¬(¬(is_active_participant db bound uid = true)) from fun h => h hact)]
    · intro p hp hchat huser
      rcases List.mem_map.mp hp with ⟨q, hq, rfl⟩
      by_cases hk : q.chat_id = bound ∧ q.user_id = uid
      · rw [if_pos hk]
      · rw [if_neg hk] at hchat huser ⊢
        exact absurd ⟨hchat, huser⟩ hk
  · intro hlen
    have hne : text ≠ "" := by
      intro h
      rw [h, hempty] at hlen
      omega
    simp only [cmd_wish, hb]
    rw [if_neg hne, if_pos hlen]
  · intro hne hle hina
    simp only [cmd_wish, hb]
    rw [if_neg hne, if_neg (show ¬(600 < text.length) by omega),
      if_pos (show ¬(is_active_participant db bound uid = true) from by
        rw [hina]; exact Bool.false_ne_true)]

set_option maxRecDepth 8192 in
/-- Witness for the amended C7: 600 characters accepted and stored for
participant 5, 601 characters rejected, and non-participant 9 with valid
text refused with `notAParticipant`. -/
theorem C7_witness :
    (∃ ps, cmd_wish dbC7w 5 (aText 600) = ({ dbC7w with participants := ps }, .saved) ∧
      ∀ p ∈ ps, p.chat_id = 100 → p.user_id = 5 → p.wishlist = some (aText 600)) ∧
    cmd_wish dbC7w 5 (aText 601) = (dbC7w, .tooLong) ∧
    cmd_wish dbC7w 9 (aText 600) = (dbC7w, .notAParticipant) :=
  ⟨(C7_wishlist_length_and_participant dbC7w 5 (aText 600) 100 (by rfl)).1
      (by decide) (by decide),
    (C7_wishlist_length_and_participant dbC7w 5 (aText 601) 100 (by rfl)).2.1 (by decide),
    (C7_wishlist_length_and_participant dbC7w 9 (aText 600) 100 (by rfl)).2.2
      (by decide) (by decide) (by decide)⟩

/-- C3 evaluated at the failing input: rebinding the same chat deletes that
chat's participant and pair rows (SQLite REPLACE + ON DELETE CASCADE under
PRAGMA foreign_keys=ON), contradicting the claim that they are unchanged. -/
theorem C3_rebind_same_chat_wipes :
    (cmd_bind_chat dbC3 [9] (some 9) (some 100) true "t").2 = .bound ∧
    dbC3.participants ≠ [] ∧ dbC3.pairs ≠ [] ∧
    (cmd_bind_chat dbC3 [9] (some 9) (some 100) true "t").1.participants = [] ∧
    (cmd_bind_chat dbC3 [9] (some 9) (some 100) true "t").1.pairs = [] := by
  decide
